import Mathlib

/-!
# StokesIntegrator (`src/integrators/stokes.cpp`)

A shallow embedding of the Stokes integrator of Mitsuba 2: a sampling
integrator that wraps another sampling integrator and writes the four Stokes
components of the radiance it returns into the AOV buffer.

* The class is a template over `Float` and `Spectrum`.  The embedding keeps the
  scalar type `F` abstract and describes the spectrum type by three compile-time
  parameters: `pol` (`is_polarized_v`), a `ColorMode` (`is_monochromatic_v`,
  `is_rgb_v`, `is_spectral_v`) and the number `n` of wavelength samples.
* `Float *aovs` is a cursor (a slot number) into a memory of scalars; a store
  `*aovs++ = x` updates the cell and is recorded in a journal of stores.
* Everything the wrapped integrator may touch besides the AOV memory (the sampler
  state, ...) is an abstract environment `σ`.
-/

namespace Mitsuba

/-! ## Colours and spectra -/

/-- Which of `is_monochromatic_v`, `is_rgb_v`, `is_spectral_v` holds of the variant. -/
inductive ColorMode where
  | monochromatic
  | rgb
  | spectral
deriving DecidableEq

/-- Type `Color<Float, 1>`: the unpolarized spectrum of a monochromatic variant. -/
structure Color1 (F : Type) where
  x : F

/-- Type `Color3f`. -/
structure Color3 (F : Type) where
  r : F
  g : F
  b : F

/-- Assignment of a scalar to a `Color3f` (`rgb = stokes[i].x()`): the scalar is
broadcast to the three entries. -/
def Color3.broadcast {F : Type} (v : F) : Color3 F := ⟨v, v, v⟩

/-- Type `UnpolarizedSpectrum` of a variant: one value, an RGB triple, or `n`
wavelength samples. -/
def UnpolarizedSpectrum (F : Type) : ColorMode → Nat → Type
  | .monochromatic, _ => Color1 F
  | .rgb, _ => Color3 F
  | .spectral, n => Fin n → F

/-- Type `MuellerMatrix<UnpolarizedSpectrum>`: `coeff c` is coefficient `c` of the
matrix, an array of four entries. -/
structure MuellerMatrix (U : Type) where
  coeff : Fin 4 → Fin 4 → U

/-- Type `Spectrum` of a variant: a Mueller matrix in polarized variants, an
unpolarized spectrum otherwise. -/
def Spectrum (F : Type) : Bool → ColorMode → Nat → Type
  | true, m, n => MuellerMatrix (UnpolarizedSpectrum F m n)
  | false, m, n => UnpolarizedSpectrum F m n

/-- Type `RayDifferential3f`, of which the integrator reads `wavelengths` only. -/
structure RayDifferential3f (G W : Type) where
  geometry : G
  wavelengths : W

/-- The library functions the spectral branch of `sample` calls; they are declared
in headers outside this unit and are taken as parameters. -/
structure SpectralOps (F Mask W : Type) (n : Nat) where
  pdf_rgb_spectrum : W → Fin n → F
  spectrum_to_xyz : (Fin n → F) → W → Mask → Color3 F
  xyz_to_srgb : Color3 F → Color3 F

/-! ## The AOV memory -/

/-- The memory `Float *aovs` points into: its cells, and the journal of the stores
made so far (slot and value, oldest first). -/
structure AovBuffer (F : Type) where
  cells : Nat → F
  writes : List (Nat × F)

/-- Store `*a = x`. -/
def AovBuffer.store {F : Type} (buf : AovBuffer F) (a : Nat) (x : F) : AovBuffer F :=
  { cells := Function.update buf.cells a x, writes := buf.writes ++ [(a, x)] }

/-- Statement `*aovs++ = x` on the pair of the memory and the cursor. -/
def storeInc {F : Type} (st : AovBuffer F × Nat) (x : F) : AovBuffer F × Nat :=
  (st.1.store st.2 x, st.2 + 1)

/-- What a call of `sample` can change: the AOV memory and the environment (sampler
state and whatever else the wrapped integrator owns). -/
structure RenderState (F σ : Type) where
  buffer : AovBuffer F
  env : σ

/-! ## The integrators -/

/-- Interface `SamplingIntegrator` as far as `StokesIntegrator` uses it. -/
structure SamplingIntegrator (F Mask Scene Sampler Ray σ : Type)
    (pol : Bool) (m : ColorMode) (n : Nat) where
  sample : Scene → Sampler → Ray → Nat → Mask → RenderState F σ →
    (Spectrum F pol m n × Mask) × RenderState F σ
  aov_names : List String

/-- Class `StokesIntegrator`: its only member is `m_integrator`. -/
structure StokesIntegrator (F Mask Scene Sampler Ray σ : Type)
    (pol : Bool) (m : ColorMode) (n : Nat) where
  m_integrator : SamplingIntegrator F Mask Scene Sampler Ray σ pol m n

section Sample

variable {F Mask Scene Sampler G W σ : Type}

/-- The body of the `if constexpr` chain of `sample` (lines 41-51): the RGB triple
of one Stokes component. -/
def stokesToRgb [Zero F] [Mul F] [Inv F] [DecidableEq F] :
    (m : ColorMode) → (n : Nat) → SpectralOps F Mask W n →
    UnpolarizedSpectrum F m n → RayDifferential3f G W → Mask → Color3 F
  | .monochromatic, _, _, s, _, _ => Color3.broadcast (Color1.x s)
  | .rgb, _, _, s, _, _ => s
  | .spectral, _, ops, s, ray, active =>
    let pdf := ops.pdf_rgb_spectrum ray.wavelengths
    let spec := fun k => s k * (if pdf k ≠ 0 then (pdf k)⁻¹ else 0)
    ops.xyz_to_srgb (ops.spectrum_to_xyz spec ray.wavelengths active)

/-- One iteration of the loop of `sample` (lines 40-53). -/
def stokesLoopBody [Zero F] [Mul F] [Inv F] [DecidableEq F]
    (m : ColorMode) (n : Nat) (ops : SpectralOps F Mask W n)
    (stokes : Fin 4 → UnpolarizedSpectrum F m n) (ray : RayDifferential3f G W)
    (active : Mask) (st : AovBuffer F × Nat) (i : Fin 4) : AovBuffer F × Nat :=
  let rgb := stokesToRgb m n ops (stokes i) ray active
  storeInc (storeInc (storeInc st rgb.r) rgb.g) rgb.b

/-- The block `if constexpr (is_polarized_v<Spectrum>)` of `sample` (lines 37-55),
run on the memory and the cursor `aovs`. -/
def writeStokes [Zero F] [Mul F] [Inv F] [DecidableEq F] :
    (pol : Bool) → (m : ColorMode) → (n : Nat) → SpectralOps F Mask W n →
    Spectrum F pol m n → RayDifferential3f G W → Mask →
    AovBuffer F × Nat → AovBuffer F × Nat
  | false, _, _, _, _, _, _, st => st
  | true, m, n, ops, spectrum, ray, active, st =>
    let stokes := spectrum.coeff 0
    (List.finRange 4).foldl (stokesLoopBody m n ops stokes ray active) st

/-- Method `StokesIntegrator::sample`. -/
def StokesIntegrator.sample [Zero F] [Mul F] [Inv F] [DecidableEq F]
    {pol : Bool} {m : ColorMode} {n : Nat}
    (self : StokesIntegrator F Mask Scene Sampler (RayDifferential3f G W) σ pol m n)
    (ops : SpectralOps F Mask W n) (scene : Scene) (sampler : Sampler)
    (ray : RayDifferential3f G W) (aovs : Nat) (active : Mask)
    (st : RenderState F σ) : (Spectrum F pol m n × Mask) × RenderState F σ :=
  let result := self.m_integrator.sample scene sampler ray (aovs + 12) active st
  let written := writeStokes pol m n ops result.1.1 ray active (result.2.buffer, aovs)
  (result.1, { result.2 with buffer := written.1 })

end Sample

/-! ## Channel names -/

/-- Call `v.insert(v.begin() + pos, x)` of `std::vector`; it is defined only for
`pos ≤ v.size()`. -/
def vectorInsert {α : Type} (v : List α) (pos : Nat) (x : α) : Option (List α) :=
  if pos ≤ v.length then some (v.insertIdx pos x) else none

/-- The name built at line 64: `"S" + std::to_string(i) + "." + ("RGB"[j])`. -/
def stokesName (i j : Nat) : String :=
  (("S" ++ toString i) ++ ".").push ("RGB".toList.getD j ' ')

/-- The two nested loops of `aov_names` (lines 62-64). -/
def insertStokesNames (names : List String) : Option (List String) :=
  (List.range 4).foldlM
    (fun result i =>
      (List.range 3).foldlM
        (fun result j => vectorInsert result (3 * i + j) (stokesName i j)) result)
    names

/-- The loops of `aov_names` (lines 62-64) run up to, and without, the insertion of
iteration `(i, j)`: the value of `result` that insertion finds. -/
def insertStokesNamesBefore (names : List String) (i j : Nat) : Option (List String) :=
  ((List.range i).foldlM
    (fun result i =>
      (List.range 3).foldlM
        (fun result j => vectorInsert result (3 * i + j) (stokesName i j)) result)
    names).bind fun result =>
      (List.range j).foldlM
        (fun result j => vectorInsert result (3 * i + j) (stokesName i j)) result

/-- Method `StokesIntegrator::aov_names`; `none` stands for an insertion past the last
position of the vector. -/
def StokesIntegrator.aov_names {F Mask Scene Sampler Ray σ : Type}
    {pol : Bool} {m : ColorMode} {n : Nat}
    (self : StokesIntegrator F Mask Scene Sampler Ray σ pol m n) : Option (List String) :=
  insertStokesNames self.m_integrator.aov_names

/-- Method `aov_names` as a call made in a render state.  The method is `const`, takes
no argument and touches neither the AOV memory nor the environment: it returns its list
and the state as it found it. -/
def StokesIntegrator.aov_names_in {F Mask Scene Sampler Ray σ : Type}
    {pol : Bool} {m : ColorMode} {n : Nat}
    (self : StokesIntegrator F Mask Scene Sampler Ray σ pol m n) (st : RenderState F σ) :
    Option (List String) × RenderState F σ :=
  (self.aov_names, st)

/-! ## Construction -/

/-- An entry of `props.objects()`: an object that is a `SamplingIntegrator`, or an
object of another class. -/
inductive Object (SI O : Type) where
  | samplingIntegrator (integrator : SI)
  | other (object : O)

/-- Expression `dynamic_cast<SamplingIntegrator *>(kv.second.get())`; `none` is the
null pointer. -/
def Object.dynamic_cast {SI O : Type} : Object SI O → Option SI
  | .samplingIntegrator integrator => some integrator
  | .other _ => none

/-- Type `Properties`, of which the constructor reads `objects()` only. -/
structure Properties (SI O : Type) where
  objects : List (String × Object SI O)

/-- One iteration of the loop of the constructor (lines 18-23) on the current value
of `m_integrator`. -/
def ctorLoopBody {SI O : Type} (m_integrator : Option SI) (kv : String × Object SI O) :
    Except String (Option SI) :=
  match kv.2.dynamic_cast with
  | none => Except.error "Child objects must be of type 'SamplingIntegrator'!"
  | some integrator =>
    if m_integrator.isSome then
      Except.error "More than one sub-integrator specified!"
    else
      Except.ok (some integrator)

/-- Constructor `StokesIntegrator::StokesIntegrator`; `Except.error` carries the
message of the `Throw` that ends it. -/
def StokesIntegrator.construct {F Mask Scene Sampler Ray σ O : Type}
    (pol : Bool) (m : ColorMode) (n : Nat)
    (props : Properties (SamplingIntegrator F Mask Scene Sampler Ray σ pol m n) O) :
    Except String (StokesIntegrator F Mask Scene Sampler Ray σ pol m n) :=
  if !pol then
    Except.error "This integrator should only be used in polarized mode!"
  else
    match props.objects.foldlM ctorLoopBody none with
    | Except.error e => Except.error e
    | Except.ok none => Except.error "Must specify a sub-integrator!"
    | Except.ok (some integrator) => Except.ok { m_integrator := integrator }

/-! ## Traversal -/

/-- A `TraversalCallback` that records the calls of `put_object` it receives. -/
structure TraversalCallback (Obj : Type) where
  objects : List (String × Obj)

/-- Method `TraversalCallback::put_object`. -/
def TraversalCallback.put_object {Obj : Type} (callback : TraversalCallback Obj)
    (name : String) (obj : Obj) : TraversalCallback Obj :=
  { objects := callback.objects ++ [(name, obj)] }

/-- Method `StokesIntegrator::traverse`, which is not `const`: it returns the object
and the callback as the call leaves them. -/
def StokesIntegrator.traverse {F Mask Scene Sampler Ray σ : Type}
    {pol : Bool} {m : ColorMode} {n : Nat}
    (self : StokesIntegrator F Mask Scene Sampler Ray σ pol m n)
    (callback : TraversalCallback (SamplingIntegrator F Mask Scene Sampler Ray σ pol m n)) :
    StokesIntegrator F Mask Scene Sampler Ray σ pol m n ×
      TraversalCallback (SamplingIntegrator F Mask Scene Sampler Ray σ pol m n) :=
  (self, callback.put_object "integrator" self.m_integrator)

/-! ## Observing the calls of the wrapped integrator -/

/-- The arguments of one call of `SamplingIntegrator::sample`. -/
structure SampleCall (Scene Sampler Ray Mask : Type) where
  scene : Scene
  sampler : Sampler
  ray : Ray
  aovs : Nat
  active : Mask

/-- A sampling integrator that behaves as `w` and appends the arguments of every
call of its `sample` to a log kept in the environment. -/
def SamplingIntegrator.traced {F Mask Scene Sampler Ray σ : Type}
    {pol : Bool} {m : ColorMode} {n : Nat}
    (w : SamplingIntegrator F Mask Scene Sampler Ray σ pol m n) :
    SamplingIntegrator F Mask Scene Sampler Ray
      (σ × List (SampleCall Scene Sampler Ray Mask)) pol m n where
  sample := fun scene sampler ray aovs active st =>
    let r := w.sample scene sampler ray aovs active { buffer := st.buffer, env := st.env.1 }
    (r.1, { buffer := r.2.buffer,
            env := (r.2.env, st.env.2 ++ [SampleCall.mk scene sampler ray aovs active]) })
  aov_names := w.aov_names

/-! ## Vocabulary of the statements -/

/-- Entry `j` of a `Color3f`: `rgb[0]` is `r()`, `rgb[1]` is `g()`, `rgb[2]` is `b()`. -/
def Color3.channel {F : Type} (c : Color3 F) : Fin 3 → F
  | 0 => c.r
  | 1 => c.g
  | 2 => c.b

/-- The twelve values of four RGB triples in the order S0.R, S0.G, S0.B, S1.R, ...,
S3.B. -/
def stokesValues {F : Type} (rgb : Fin 4 → Color3 F) : List F :=
  (List.finRange 4).flatMap fun i => [(rgb i).r, (rgb i).g, (rgb i).b]

/-- The cells `a, a + 1, ..., a + len - 1` of a memory. -/
def AovBuffer.slots {F : Type} (buf : AovBuffer F) (a len : Nat) : List F :=
  (List.range len).map fun k => buf.cells (a + k)

/-! ## A concrete run: an RGB variant over the rationals -/

/-- The Stokes vector `[(1,1,1), (0.2,0,0), (0,0.1,0), (0,0,-0.05)]`. -/
def scenarioStokes (F : Type) [Field F] : Fin 4 → Color3 F
  | 0 => ⟨1, 1, 1⟩
  | 1 => ⟨1 / 5, 0, 0⟩
  | 2 => ⟨0, 1 / 10, 0⟩
  | 3 => ⟨0, 0, -1 / 20⟩

/-- A wrapped integrator of a polarized RGB variant: it returns a Mueller matrix
whose coefficient 0 is `scenarioStokes`, and writes two AOVs of its own, 7 and 8, at
the cursor it is given. -/
def scenarioIntegrator :
    SamplingIntegrator ℚ Bool Unit Unit (RayDifferential3f Unit Unit) Unit true .rgb 0 where
  sample := fun _ _ _ aovs active st =>
    (({ coeff := fun c => if c = 0 then scenarioStokes ℚ else fun _ => ⟨0, 0, 0⟩ }, active),
     { st with buffer := (st.buffer.store aovs 7).store (aovs + 1) 8 })
  aov_names := ["depth", "alpha"]

/-- Spectral operations of a variant without wavelength samples. -/
def scenarioOps : SpectralOps ℚ Bool Unit 0 where
  pdf_rgb_spectrum := fun _ k => k.elim0
  spectrum_to_xyz := fun _ _ _ => ⟨0, 0, 0⟩
  xyz_to_srgb := fun c => c

/-- A state whose AOV memory is zero everywhere and was never stored to. -/
def scenarioState : RenderState ℚ Unit :=
  { buffer := { cells := fun _ => 0, writes := [] }, env := () }

/-- The state after `sample` of the Stokes integrator around `scenarioIntegrator`,
called with cursor 0 on `scenarioState`. -/
def scenarioResult : RenderState ℚ Unit :=
  ((StokesIntegrator.mk scenarioIntegrator).sample scenarioOps () ()
    { geometry := (), wavelengths := () } 0 true scenarioState).2

/-- The configuration whose only child is `scenarioIntegrator`. -/
def scenarioProps :
    Properties
      (SamplingIntegrator ℚ Bool Unit Unit (RayDifferential3f Unit Unit) Unit true .rgb 0)
      Unit :=
  { objects := [("integrator", Object.samplingIntegrator scenarioIntegrator)] }

/-- A wrapped integrator of a polarized monochromatic variant with the channel names
of `scenarioIntegrator`. -/
def scenarioMonoIntegrator :
    SamplingIntegrator ℚ Bool Unit Unit (RayDifferential3f Unit Unit) Unit true
      .monochromatic 0 where
  sample := fun _ _ _ _ active st =>
    (({ coeff := fun _ _ => ⟨1⟩ }, active), st)
  aov_names := ["depth", "alpha"]

/-! ## A concrete run: a spectral variant with two wavelength samples -/

end Mitsuba

/-! ## Lemmas on stores -/

namespace Mitsuba

section StoreLemmas

variable {F Mask Scene Sampler G W σ : Type}

theorem finRange_four : List.finRange 4 = [0, 1, 2, 3] := by decide

theorem storeInc_pair (buf : AovBuffer F) (a : Nat) (v : F) :
    storeInc (buf, a) v = (buf.store a v, a + 1) := rfl

theorem foldl_storeInc_writes (vals : List F) (buf : AovBuffer F) (a : Nat) :
    (vals.foldl storeInc (buf, a)).1.writes = buf.writes ++ vals.enumFrom a := by
  induction vals generalizing buf a with
  | nil => simp
  | cons v vs ih =>
    simp only [List.foldl_cons, storeInc_pair, ih, List.enumFrom_cons]
    simp [AovBuffer.store]

theorem foldl_storeInc_outside (vals : List F) (buf : AovBuffer F) (a x : Nat)
    (hx : x < a ∨ a + vals.length ≤ x) :
    (vals.foldl storeInc (buf, a)).1.cells x = buf.cells x := by
  induction vals generalizing buf a with
  | nil => rfl
  | cons v vs ih =>
    simp only [List.foldl_cons, storeInc_pair, List.length_cons] at hx ⊢
    rw [ih _ _ (by omega)]
    have hne : x ≠ a := by omega
    simp [AovBuffer.store, Function.update, hne]

theorem foldl_storeInc_inside (vals : List F) (buf : AovBuffer F) (a k : Nat) (v : F)
    (hk : vals[k]? = some v) :
    (vals.foldl storeInc (buf, a)).1.cells (a + k) = v := by
  induction vals generalizing buf a k with
  | nil => simp at hk
  | cons u us ih =>
    simp only [List.foldl_cons, storeInc_pair]
    cases k with
    | zero =>
      simp only [List.getElem?_cons_zero, Option.some.injEq] at hk
      rw [foldl_storeInc_outside _ _ _ _ (by omega)]
      simp [AovBuffer.store, hk]
    | succ k =>
      simp only [List.getElem?_cons_succ] at hk
      have := ih (buf.store a u) (a + 1) k hk
      rwa [show a + 1 + k = a + (k + 1) by omega] at this

theorem foldl_storeInc_slots (vals : List F) (buf : AovBuffer F) (a : Nat) :
    (vals.foldl storeInc (buf, a)).1.slots a vals.length = vals := by
  apply List.ext_getElem
  · simp [AovBuffer.slots]
  · intro k h1 h2
    simp only [AovBuffer.slots, List.getElem_map, List.getElem_range]
    exact foldl_storeInc_inside vals buf a k _ (List.getElem?_eq_getElem h2)

theorem stokesValues_getElem? (rgb : Fin 4 → Color3 F) (i : Fin 4) (j : Fin 3) :
    (stokesValues rgb)[3 * i.val + j.val]? = some ((rgb i).channel j) := by
  fin_cases i <;> fin_cases j <;> rfl

theorem stokesValues_length (rgb : Fin 4 → Color3 F) : (stokesValues rgb).length = 12 := by
  simp [stokesValues, finRange_four]

variable [Zero F] [Mul F] [Inv F] [DecidableEq F]

/-- In a polarized variant the loop of `sample` stores `stokesValues` of the four
converted Stokes components, one value after the other. -/
theorem writeStokes_polarized (m : ColorMode) (n : Nat) (ops : SpectralOps F Mask W n)
    (spectrum : MuellerMatrix (UnpolarizedSpectrum F m n)) (ray : RayDifferential3f G W)
    (active : Mask) (st : AovBuffer F × Nat) :
    writeStokes true m n ops spectrum ray active st
      = (stokesValues fun i => stokesToRgb m n ops (spectrum.coeff 0 i) ray active).foldl
          storeInc st := by
  simp [writeStokes, stokesValues, finRange_four, stokesLoopBody]

/-- The four RGB triples `sample` computes from a radiance value of a polarized
variant. -/
theorem sample_buffer {m : ColorMode} {n : Nat}
    (self : StokesIntegrator F Mask Scene Sampler (RayDifferential3f G W) σ true m n)
    (ops : SpectralOps F Mask W n) (scene : Scene) (sampler : Sampler)
    (ray : RayDifferential3f G W) (aovs : Nat) (active : Mask) (st : RenderState F σ) :
    (self.sample ops scene sampler ray aovs active st).2.buffer
      = ((stokesValues fun i => stokesToRgb m n ops
            (MuellerMatrix.coeff
              (self.m_integrator.sample scene sampler ray (aovs + 12) active st).1.1 0 i)
            ray active).foldl storeInc
          ((self.m_integrator.sample scene sampler ray (aovs + 12) active st).2.buffer,
            aovs)).1 := by
  simp only [StokesIntegrator.sample]
  rw [writeStokes_polarized]

theorem sample_cells_inside {m : ColorMode} {n : Nat}
    (self : StokesIntegrator F Mask Scene Sampler (RayDifferential3f G W) σ true m n)
    (ops : SpectralOps F Mask W n) (scene : Scene) (sampler : Sampler)
    (ray : RayDifferential3f G W) (aovs : Nat) (active : Mask) (st : RenderState F σ)
    (i : Fin 4) (j : Fin 3) :
    (self.sample ops scene sampler ray aovs active st).2.buffer.cells
        (aovs + (3 * i.val + j.val))
      = (stokesToRgb m n ops
          (MuellerMatrix.coeff
            (self.m_integrator.sample scene sampler ray (aovs + 12) active st).1.1 0 i)
          ray active).channel j := by
  rw [sample_buffer]
  exact foldl_storeInc_inside _ _ _ _ _ (stokesValues_getElem? _ i j)

theorem sample_cells_outside {m : ColorMode} {n : Nat}
    (self : StokesIntegrator F Mask Scene Sampler (RayDifferential3f G W) σ true m n)
    (ops : SpectralOps F Mask W n) (scene : Scene) (sampler : Sampler)
    (ray : RayDifferential3f G W) (aovs : Nat) (active : Mask) (st : RenderState F σ)
    (x : Nat) (hx : x < aovs ∨ aovs + 12 ≤ x) :
    (self.sample ops scene sampler ray aovs active st).2.buffer.cells x
      = (self.m_integrator.sample scene sampler ray (aovs + 12) active st).2.buffer.cells
          x := by
  rw [sample_buffer]
  exact foldl_storeInc_outside _ _ _ _ (by rw [stokesValues_length]; exact hx)

theorem sample_writes {m : ColorMode} {n : Nat}
    (self : StokesIntegrator F Mask Scene Sampler (RayDifferential3f G W) σ true m n)
    (ops : SpectralOps F Mask W n) (scene : Scene) (sampler : Sampler)
    (ray : RayDifferential3f G W) (aovs : Nat) (active : Mask) (st : RenderState F σ) :
    (self.sample ops scene sampler ray aovs active st).2.buffer.writes
      = (self.m_integrator.sample scene sampler ray (aovs + 12) active st).2.buffer.writes
        ++ (stokesValues fun i => stokesToRgb m n ops
            (MuellerMatrix.coeff
              (self.m_integrator.sample scene sampler ray (aovs + 12) active st).1.1 0 i)
            ray active).enumFrom aovs := by
  rw [sample_buffer, foldl_storeInc_writes]

/-- In every variant the stores of `sample` itself stay within `[aovs, aovs + 12)`. -/
theorem sample_cells_frame {pol : Bool} {m : ColorMode} {n : Nat}
    (self : StokesIntegrator F Mask Scene Sampler (RayDifferential3f G W) σ pol m n)
    (ops : SpectralOps F Mask W n) (scene : Scene) (sampler : Sampler)
    (ray : RayDifferential3f G W) (aovs : Nat) (active : Mask) (st : RenderState F σ)
    (x : Nat) (hx : x < aovs ∨ aovs + 12 ≤ x) :
    (self.sample ops scene sampler ray aovs active st).2.buffer.cells x
      = (self.m_integrator.sample scene sampler ray (aovs + 12) active st).2.buffer.cells
          x := by
  cases pol with
  | false => rfl
  | true => exact sample_cells_outside self ops scene sampler ray aovs active st x hx

end StoreLemmas

/-! ## Lemmas on channel names -/

theorem vectorInsert_at_length {α : Type} (pre rest : List α) (x : α) (pos : Nat)
    (hpos : pos = pre.length) :
    vectorInsert (pre ++ rest) pos x = some (pre ++ x :: rest) := by
  subst hpos
  have h : pre.length ≤ (pre ++ rest).length := by simp
  simp only [vectorInsert, h, if_true, Option.some.injEq]
  induction pre with
  | nil => simp
  | cons p ps ih =>
    simp only [List.cons_append, List.length_cons, List.insertIdx_succ_cons, List.cons.injEq,
      true_and]
    exact ih (by simp)

theorem insertStokesNames_eq (names : List String) :
    insertStokesNames names
      = some (["S0.R", "S0.G", "S0.B", "S1.R", "S1.G", "S1.B",
               "S2.R", "S2.G", "S2.B", "S3.R", "S3.G", "S3.B"] ++ names) := by
  have n00 : stokesName 0 0 = "S0.R" := by decide
  have n01 : stokesName 0 1 = "S0.G" := by decide
  have n02 : stokesName 0 2 = "S0.B" := by decide
  have n10 : stokesName 1 0 = "S1.R" := by decide
  have n11 : stokesName 1 1 = "S1.G" := by decide
  have n12 : stokesName 1 2 = "S1.B" := by decide
  have n20 : stokesName 2 0 = "S2.R" := by decide
  have n21 : stokesName 2 1 = "S2.G" := by decide
  have n22 : stokesName 2 2 = "S2.B" := by decide
  have n30 : stokesName 3 0 = "S3.R" := by decide
  have n31 : stokesName 3 1 = "S3.G" := by decide
  have n32 : stokesName 3 2 = "S3.B" := by decide
  simp [insertStokesNames, List.range, List.range.loop, vectorInsert, List.insertIdx_succ_cons,
    n00, n01, n02, n10, n11, n12, n20, n21, n22, n30, n31, n32]

theorem stokesName_lookup :
    ∀ (i : Fin 4) (j : Fin 3),
      ["S0.R", "S0.G", "S0.B", "S1.R", "S1.G", "S1.B",
        "S2.R", "S2.G", "S2.B", "S3.R", "S3.G", "S3.B"][3 * i.val + j.val]?
        = some (stokesName i.val j.val) := by
  decide

theorem stokesName_indexOf :
    ∀ (i : Fin 4) (j : Fin 3),
      List.indexOf (stokesName i.val j.val)
          ["S0.R", "S0.G", "S0.B", "S1.R", "S1.G", "S1.B",
            "S2.R", "S2.G", "S2.B", "S3.R", "S3.G", "S3.B"]
        = 3 * i.val + j.val := by
  decide

end Mitsuba

/-! ## Buffer layout and channel names -/

namespace Mitsuba

/-- C1, as the code has it.  In a polarized variant `sample`, called with cursor
`aovs`, leaves channel `j` of the RGB triple of Stokes component `i` in slot
`aovs + 3 * i + j`, so the twelve Stokes values fill slots `[0, 12)` relative to
`aovs`; every slot from `aovs + 12` on holds what the wrapped integrator, which is
given the cursor `aovs + 12`, left there.  In an RGB variant, when coefficient 0 of the
returned radiance is `[(1,1,1), (1/5,0,0), (0,1/10,0), (0,0,-1/20)]`, slots `[0, 12)`
hold `[1,1,1, 1/5,0,0, 0,1/10,0, 0,0,-1/20]` after the call. -/
theorem sample_stokes_in_first_twelve_slots {F Mask Scene Sampler G W σ : Type}
    [Field F] [DecidableEq F] :
    (∀ (m : ColorMode) (n : Nat)
        (self : StokesIntegrator F Mask Scene Sampler (RayDifferential3f G W) σ true m n)
        (ops : SpectralOps F Mask W n) (scene : Scene) (sampler : Sampler)
        (ray : RayDifferential3f G W) (aovs : Nat) (active : Mask) (st : RenderState F σ),
        (∀ (i : Fin 4) (j : Fin 3),
          (self.sample ops scene sampler ray aovs active st).2.buffer.cells
              (aovs + (3 * i.val + j.val))
            = (stokesToRgb m n ops
                (MuellerMatrix.coeff
                  (self.m_integrator.sample scene sampler ray (aovs + 12) active st).1.1 0 i)
                ray active).channel j) ∧
        (∀ k : Nat,
          (self.sample ops scene sampler ray aovs active st).2.buffer.cells (aovs + 12 + k)
            = (self.m_integrator.sample scene sampler ray (aovs + 12) active
                st).2.buffer.cells (aovs + 12 + k))) ∧
    (∀ (n : Nat)
        (self : StokesIntegrator F Mask Scene Sampler (RayDifferential3f G W) σ true .rgb n)
        (ops : SpectralOps F Mask W n) (scene : Scene) (sampler : Sampler)
        (ray : RayDifferential3f G W) (aovs : Nat) (active : Mask) (st : RenderState F σ),
        MuellerMatrix.coeff
            (self.m_integrator.sample scene sampler ray (aovs + 12) active st).1.1 0
          = scenarioStokes F →
        (self.sample ops scene sampler ray aovs active st).2.buffer.slots aovs 12
          = [1, 1, 1, 1 / 5, 0, 0, 0, 1 / 10, 0, 0, 0, -1 / 20]) := by
  refine ⟨?_, ?_⟩
  · intro m n self ops scene sampler ray aovs active st
    refine ⟨fun i j => sample_cells_inside self ops scene sampler ray aovs active st i j, ?_⟩
    intro k
    exact sample_cells_outside self ops scene sampler ray aovs active st _ (by omega)
  · intro n self ops scene sampler ray aovs active st h
    have key : ∀ (i : Fin 4) (j : Fin 3),
        (self.sample ops scene sampler ray aovs active st).2.buffer.cells
            (aovs + (3 * i.val + j.val)) = (scenarioStokes F i).channel j := by
      intro i j
      rw [sample_cells_inside, h]
      rfl
    have c00 := key 0 0
    have c01 := key 0 1
    have c02 := key 0 2
    have c10 := key 1 0
    have c11 := key 1 1
    have c12 := key 1 2
    have c20 := key 2 0
    have c21 := key 2 1
    have c22 := key 2 2
    have c30 := key 3 0
    have c31 := key 3 1
    have c32 := key 3 2
    simp only [Fin.val_zero, Fin.val_one, Fin.val_two, Fin.isValue, Nat.mul_zero, Nat.mul_one,
      Nat.add_zero, Nat.zero_add, Nat.reduceMul, Nat.reduceAdd,
      show ((3 : Fin 4) : Nat) = 3 from rfl] at c00 c01 c02 c10 c11 c12 c20 c21 c22 c30 c31 c32
    simp only [AovBuffer.slots, List.range, List.range.loop, List.map_cons, List.map_nil,
      Nat.add_zero, c00, c01, c02, c10, c11, c12, c20, c21, c22, c30, c31, c32]
    rfl

/-- C1: the run of `scenarioIntegrator` obeys the layout of
`sample_stokes_in_first_twelve_slots`. -/
theorem sample_stokes_in_first_twelve_slots_witness :
    scenarioResult.buffer.slots 0 12 = [1, 1, 1, 1 / 5, 0, 0, 0, 1 / 10, 0, 0, 0, -1 / 20] :=
  sample_stokes_in_first_twelve_slots.2 0 (StokesIntegrator.mk scenarioIntegrator) scenarioOps
    () () { geometry := (), wavelengths := () } 0 true scenarioState rfl

/-- C1 fails as stated: in the run of `scenarioIntegrator`, whose radiance carries the
Stokes vector `[(1,1,1), (1/5,0,0), (0,1/10,0), (0,0,-1/20)]`, slots `[12, 24)` hold
the wrapped integrator's two outputs 7 and 8 followed by untouched cells, not the
Stokes values, and the Stokes values are in slots `[0, 12)`. -/
theorem stokes_not_in_slots_12_to_24 :
    scenarioResult.buffer.slots 12 12 ≠ [1, 1, 1, 1 / 5, 0, 0, 0, 1 / 10, 0, 0, 0, -1 / 20] ∧
    scenarioResult.buffer.slots 12 12 = [7, 8, 0, 0, 0, 0, 0, 0, 0, 0, 0, 0] ∧
    scenarioResult.buffer.slots 0 12 = [1, 1, 1, 1 / 5, 0, 0, 0, 1 / 10, 0, 0, 0, -1 / 20] := by
  have h : scenarioResult.buffer.slots 12 12 = [7, 8, 0, 0, 0, 0, 0, 0, 0, 0, 0, 0] := rfl
  refine ⟨?_, h, rfl⟩
  rw [h]
  norm_num

end Mitsuba

namespace Mitsuba

/-- C2, as the code has it.  For every name list `L` of the wrapped integrator,
`aov_names` returns the twelve Stokes names followed by all of `L`: the names are
inserted at indices 0 to 11, before the first entry of `L`. -/
theorem aov_names_eq_stokes_names_append {F Mask Scene Sampler Ray σ : Type}
    {pol : Bool} {m : ColorMode} {n : Nat}
    (self : StokesIntegrator F Mask Scene Sampler Ray σ pol m n) :
    self.aov_names
      = some (["S0.R", "S0.G", "S0.B", "S1.R", "S1.G", "S1.B",
               "S2.R", "S2.G", "S2.B", "S3.R", "S3.G", "S3.B"]
              ++ self.m_integrator.aov_names) :=
  insertStokesNames_eq _

/-- C2 fails as stated: around a wrapped integrator whose names are
`["depth", "alpha"]`, `aov_names` is not `take 12 L ++ [S0.R .. S3.B] ++ drop 12 L`
(which would start with "depth"); it starts with "S0.R" and ends with the two
wrapped names. -/
theorem aov_names_not_spliced_after_twelve :
    (StokesIntegrator.mk scenarioIntegrator).aov_names
      ≠ some (scenarioIntegrator.aov_names.take 12
              ++ ["S0.R", "S0.G", "S0.B", "S1.R", "S1.G", "S1.B",
                  "S2.R", "S2.G", "S2.B", "S3.R", "S3.G", "S3.B"]
              ++ scenarioIntegrator.aov_names.drop 12) ∧
    (StokesIntegrator.mk scenarioIntegrator).aov_names
      = some ["S0.R", "S0.G", "S0.B", "S1.R", "S1.G", "S1.B",
              "S2.R", "S2.G", "S2.B", "S3.R", "S3.G", "S3.B", "depth", "alpha"] := by
  decide

/-- C3.  In a polarized variant, around any wrapped integrator `w` (observed through
`traced`): `aov_names` returns a list `names` of length `12 + n`, where `n` is the
number of names of `w`; the stores `sample` makes after the wrapped call are such that
store number `3 * i + j` puts channel `j` of Stokes component `i` of the returned
radiance in slot `aovs + (3 * i + j)`, and `3 * i + j` is the index of the name
`stokesName i j` in `names` (the name at that index, and its first occurrence); the
wrapped integrator is called once, and for every `k < n` the slot its cursor plus `k`
reaches, counted from `aovs`, is the index in `names` of its `k`-th name. -/
theorem aov_names_match_sample_layout {F Mask Scene Sampler G W σ : Type}
    [Zero F] [Mul F] [Inv F] [DecidableEq F] {m : ColorMode} {n : Nat}
    (w : SamplingIntegrator F Mask Scene Sampler (RayDifferential3f G W) σ true m n)
    (ops : SpectralOps F Mask W n) (scene : Scene) (sampler : Sampler)
    (ray : RayDifferential3f G W) (aovs : Nat) (active : Mask)
    (st : RenderState F (σ × List (SampleCall Scene Sampler (RayDifferential3f G W) Mask))) :
    ∃ (names : List String) (stores : List (Nat × F))
      (call : SampleCall Scene Sampler (RayDifferential3f G W) Mask),
      (StokesIntegrator.mk w.traced).aov_names = some names ∧
      names.length = 12 + w.aov_names.length ∧
      ((StokesIntegrator.mk w.traced).sample ops scene sampler ray aovs active st).2.env.2
        = st.env.2 ++ [call] ∧
      ((StokesIntegrator.mk w.traced).sample ops scene sampler ray aovs active
          st).2.buffer.writes
        = (w.traced.sample call.scene call.sampler call.ray call.aovs call.active
            st).2.buffer.writes ++ stores ∧
      stores.length = 12 ∧
      (∀ (i : Fin 4) (j : Fin 3),
        stores[3 * i.val + j.val]?
          = some (aovs + (3 * i.val + j.val),
              (stokesToRgb m n ops
                (MuellerMatrix.coeff
                  ((StokesIntegrator.mk w.traced).sample ops scene sampler ray aovs active
                    st).1.1 0 i)
                ray active).channel j) ∧
        names[3 * i.val + j.val]? = some (stokesName i.val j.val) ∧
        names.indexOf (stokesName i.val j.val) = 3 * i.val + j.val) ∧
      (∀ k : Fin w.aov_names.length,
        names[call.aovs + k.val - aovs]? = some (w.aov_names.get k)) := by
  refine ⟨_, _, SampleCall.mk scene sampler ray (aovs + 12) active,
    aov_names_eq_stokes_names_append _, ?_, rfl,
    sample_writes (StokesIntegrator.mk w.traced) ops scene sampler ray aovs active st,
    ?_, ?_, ?_⟩
  · simp [SamplingIntegrator.traced]; omega
  · simp [stokesValues_length]
  · intro i j
    refine ⟨?_, ?_, ?_⟩
    · rw [List.getElem?_enumFrom, stokesValues_getElem?]
      rfl
    · have hlt : 3 * i.val + j.val < 12 := by omega
      rw [List.getElem?_append_left (by simpa using hlt)]
      exact stokesName_lookup i j
    · have hmem := List.getElem?_mem (stokesName_lookup i j)
      rw [List.indexOf_append_of_mem hmem]
      exact stokesName_indexOf i j
  · intro k
    have hk : aovs + 12 + k.val - aovs = 12 + k.val := by omega
    simp only [hk]
    rw [List.getElem?_append_right (by simp)]
    simp [SamplingIntegrator.traced]

/-- C4.  In every variant and for every name list `L` of the wrapped integrator, the
empty one included, `aov_names` returns a list of length `len L + 12` of the form
`P ++ [S0.R, S0.G, S0.B, S1.R, ..., S3.B] ++ Q` with `P ++ Q = L`. -/
theorem aov_names_contains_stokes_block {F Mask Scene Sampler Ray σ : Type}
    {pol : Bool} {m : ColorMode} {n : Nat}
    (self : StokesIntegrator F Mask Scene Sampler Ray σ pol m n) :
    ∃ (result P Q : List String),
      self.aov_names = some result ∧
      result.length = self.m_integrator.aov_names.length + 12 ∧
      result = P ++ ["S0.R", "S0.G", "S0.B", "S1.R", "S1.G", "S1.B",
                      "S2.R", "S2.G", "S2.B", "S3.R", "S3.G", "S3.B"] ++ Q ∧
      P ++ Q = self.m_integrator.aov_names := by
  refine ⟨_, [], self.m_integrator.aov_names, insertStokesNames_eq _, ?_, rfl, rfl⟩
  simp

end Mitsuba

/-! ## The values `sample` writes and what it returns -/

namespace Mitsuba

/-- C5.  In a polarized variant the stores `sample` makes after the wrapped call are
exactly twelve, to the consecutive slots `aovs, ..., aovs + 11`, and store number
`3 * i + j` (and the cell it leaves) carries channel `j` of the RGB triple computed
from entry `i` of coefficient 0 of the radiance the wrapped integrator returned. -/
theorem sample_stores_twelve_stokes_values {F Mask Scene Sampler G W σ : Type}
    [Zero F] [Mul F] [Inv F] [DecidableEq F] {m : ColorMode} {n : Nat}
    (self : StokesIntegrator F Mask Scene Sampler (RayDifferential3f G W) σ true m n)
    (ops : SpectralOps F Mask W n) (scene : Scene) (sampler : Sampler)
    (ray : RayDifferential3f G W) (aovs : Nat) (active : Mask) (st : RenderState F σ) :
    ∃ stores : List (Nat × F),
      (self.sample ops scene sampler ray aovs active st).2.buffer.writes
        = (self.m_integrator.sample scene sampler ray (aovs + 12) active st).2.buffer.writes
          ++ stores ∧
      stores.length = 12 ∧
      stores.map Prod.fst = (List.range 12).map (fun p => aovs + p) ∧
      ∀ (i : Fin 4) (j : Fin 3),
        stores[3 * i.val + j.val]?
          = some (aovs + (3 * i.val + j.val),
              (stokesToRgb m n ops
                (MuellerMatrix.coeff
                  (self.m_integrator.sample scene sampler ray (aovs + 12) active st).1.1 0 i)
                ray active).channel j) ∧
        (self.sample ops scene sampler ray aovs active st).2.buffer.cells
            (aovs + (3 * i.val + j.val))
          = (stokesToRgb m n ops
              (MuellerMatrix.coeff
                (self.m_integrator.sample scene sampler ray (aovs + 12) active st).1.1 0 i)
              ray active).channel j := by
  refine ⟨_, sample_writes self ops scene sampler ray aovs active st, ?_, ?_, ?_⟩
  · simp [stokesValues_length]
  · simp [stokesValues, finRange_four, List.range, List.range.loop]
  · intro i j
    refine ⟨?_, sample_cells_inside self ops scene sampler ray aovs active st i j⟩
    rw [List.getElem?_enumFrom, stokesValues_getElem?]
    rfl

/-- C6.  In every variant the pair of radiance and mask `sample` returns is the pair
the wrapped integrator's `sample` returned. -/
theorem sample_returns_wrapped_result {F Mask Scene Sampler G W σ : Type}
    [Zero F] [Mul F] [Inv F] [DecidableEq F] {pol : Bool} {m : ColorMode} {n : Nat}
    (self : StokesIntegrator F Mask Scene Sampler (RayDifferential3f G W) σ pol m n)
    (ops : SpectralOps F Mask W n) (scene : Scene) (sampler : Sampler)
    (ray : RayDifferential3f G W) (aovs : Nat) (active : Mask) (st : RenderState F σ) :
    (self.sample ops scene sampler ray aovs active st).1
      = (self.m_integrator.sample scene sampler ray (aovs + 12) active st).1 :=
  rfl

end Mitsuba

namespace Mitsuba

/-- C7.  In every variant, a call of `sample` around any wrapped integrator `w`
(observed through `traced`) adds exactly one call to the log of calls of `w`, the one
with the scene, sampler, ray and mask `sample` received and with the cursor
`aovs + 12`; the environment after `sample` is the one that call of `w` left; and for
every `k`, slot `12 + k` counted from `aovs` holds after `sample` what that call of
`w` left at its cursor plus `k`. -/
theorem sample_calls_wrapped_once {F Mask Scene Sampler G W σ : Type}
    [Zero F] [Mul F] [Inv F] [DecidableEq F] {pol : Bool} {m : ColorMode} {n : Nat}
    (w : SamplingIntegrator F Mask Scene Sampler (RayDifferential3f G W) σ pol m n)
    (ops : SpectralOps F Mask W n) (scene : Scene) (sampler : Sampler)
    (ray : RayDifferential3f G W) (aovs : Nat) (active : Mask)
    (st : RenderState F (σ × List (SampleCall Scene Sampler (RayDifferential3f G W) Mask))) :
    ((StokesIntegrator.mk w.traced).sample ops scene sampler ray aovs active st).2.env.2
        = st.env.2 ++ [SampleCall.mk scene sampler ray (aovs + 12) active] ∧
    ((StokesIntegrator.mk w.traced).sample ops scene sampler ray aovs active st).2.env.1
        = (w.sample scene sampler ray (aovs + 12) active
            { buffer := st.buffer, env := st.env.1 }).2.env ∧
    ∀ k : Nat,
      ((StokesIntegrator.mk w.traced).sample ops scene sampler ray aovs active
          st).2.buffer.cells (aovs + (12 + k))
        = (w.sample scene sampler ray (aovs + 12) active
            { buffer := st.buffer, env := st.env.1 }).2.buffer.cells (aovs + 12 + k) := by
  refine ⟨rfl, rfl, fun k => ?_⟩
  rw [sample_cells_frame _ ops scene sampler ray aovs active st (aovs + (12 + k)) (by omega),
    Nat.add_assoc aovs 12 k]
  rfl

end Mitsuba

/-! ## Construction -/

namespace Mitsuba

/-- Once an integrator is bound, every further child ends the constructor's loop with
an error. -/
theorem foldlM_ctorLoopBody_bound {SI O : Type} (w : SI) (kv : String × Object SI O)
    (rest : List (String × Object SI O)) :
    ∃ e, (kv :: rest).foldlM ctorLoopBody (some w) = Except.error e := by
  cases h : kv.2.dynamic_cast with
  | none =>
    exact ⟨"Child objects must be of type 'SamplingIntegrator'!",
      by simp [List.foldlM, ctorLoopBody, h, bind, Except.bind]⟩
  | some v =>
    exact ⟨"More than one sub-integrator specified!",
      by simp [List.foldlM, ctorLoopBody, h, bind, Except.bind]⟩

/-- The constructor's loop on a list of children, started with no integrator bound:
it ends without error exactly on the empty list (nothing bound) and on a list of one
`SamplingIntegrator` (which it binds). -/
theorem foldlM_ctorLoopBody_ok {SI O : Type} (objs : List (String × Object SI O))
    (r : Option SI) :
    objs.foldlM ctorLoopBody none = Except.ok r ↔
      (objs = [] ∧ r = none) ∨
      ∃ name w, objs = [(name, Object.samplingIntegrator w)] ∧ r = some w := by
  cases objs with
  | nil =>
    constructor
    · intro h
      have h2 : (none : Option SI) = r := by simpa [List.foldlM, pure, Except.pure] using h
      exact Or.inl ⟨rfl, h2.symm⟩
    · rintro (⟨-, h⟩ | ⟨_, _, h, -⟩)
      · subst h; rfl
      · cases h
  | cons kv rest =>
    obtain ⟨name, obj⟩ := kv
    cases obj with
    | other o =>
      simp [List.foldlM, ctorLoopBody, Object.dynamic_cast, bind, Except.bind]
    | samplingIntegrator w =>
      cases rest with
      | nil =>
        have hrun : ([(name, Object.samplingIntegrator w)] : List (String × Object SI O)).foldlM
            ctorLoopBody none = (Except.ok (some w) : Except String (Option SI)) := rfl
        rw [hrun]
        constructor
        · intro h
          have h2 : some w = r := by simpa using h
          exact Or.inr ⟨name, w, rfl, h2.symm⟩
        · rintro (⟨h, -⟩ | ⟨_, _, h, hr⟩)
          · cases h
          · cases h; subst hr; rfl
      | cons kv2 rest2 =>
        obtain ⟨e, he⟩ := foldlM_ctorLoopBody_bound w kv2 rest2
        have hrun : ((name, Object.samplingIntegrator w) :: kv2 :: rest2).foldlM
            ctorLoopBody none = Except.error e := by
          rw [← he]
          simp [List.foldlM, ctorLoopBody, Object.dynamic_cast, bind, Except.bind]
        rw [hrun]
        simp

end Mitsuba

namespace Mitsuba

/-- The constructor returns an object exactly in a polarized variant on a list of one
child that is a `SamplingIntegrator`, and the object is bound to that child. -/
theorem construct_eq_ok_iff {F Mask Scene Sampler Ray σ O : Type}
    (pol : Bool) (m : ColorMode) (n : Nat)
    (props : Properties (SamplingIntegrator F Mask Scene Sampler Ray σ pol m n) O)
    (self : StokesIntegrator F Mask Scene Sampler Ray σ pol m n) :
    StokesIntegrator.construct pol m n props = Except.ok self ↔
      pol = true ∧
        ∃ name, props.objects = [(name, Object.samplingIntegrator self.m_integrator)] := by
  cases pol with
  | false => simp [StokesIntegrator.construct]
  | true =>
    simp only [StokesIntegrator.construct, Bool.not_true, Bool.false_eq_true, if_false,
      true_and]
    cases hrun : props.objects.foldlM ctorLoopBody none with
    | error e =>
      simp only [false_iff, not_exists, reduceCtorEq]
      intro name hobjs
      have := (foldlM_ctorLoopBody_ok props.objects (some self.m_integrator)).2
        (Or.inr ⟨name, _, hobjs, rfl⟩)
      rw [hrun] at this
      cases this
    | ok r =>
      have hr := (foldlM_ctorLoopBody_ok props.objects r).1 hrun
      cases r with
      | none =>
        simp only [false_iff, not_exists, reduceCtorEq]
        intro name hobjs
        rcases hr with ⟨h, -⟩ | ⟨_, _, -, h⟩
        · rw [h] at hobjs; cases hobjs
        · cases h
      | some w =>
        rcases hr with ⟨-, h⟩ | ⟨name, w2, hobjs, h⟩
        · cases h
        · cases h
          constructor
          · intro hok
            have hself : self = { m_integrator := w } := by
              simpa using (Except.ok.inj hok).symm
            exact ⟨name, by rw [hobjs, hself]⟩
          · rintro ⟨name2, hobjs2⟩
            rw [hobjs] at hobjs2
            have hboth : name = name2 ∧ w = self.m_integrator := by
              simpa using hobjs2
            have hw : w = self.m_integrator := hboth.2
            rw [hw]

/-- C8.  Construction succeeds if and only if the variant is polarized and the object
list holds exactly one child and that child is a `SamplingIntegrator`, and it then
yields the decorator bound to that child; it ends with an error in a non-polarized
variant (whatever the children), on zero children, on two or more children, and when
some child is not a `SamplingIntegrator`. -/
theorem construct_succeeds_iff_single_integrator {F Mask Scene Sampler Ray σ O : Type}
    (pol : Bool) (m : ColorMode) (n : Nat)
    (props : Properties (SamplingIntegrator F Mask Scene Sampler Ray σ pol m n) O) :
    (∀ self : StokesIntegrator F Mask Scene Sampler Ray σ pol m n,
      StokesIntegrator.construct pol m n props = Except.ok self ↔
        pol = true ∧
          ∃ name, props.objects = [(name, Object.samplingIntegrator self.m_integrator)]) ∧
    (pol = false → ∃ e, StokesIntegrator.construct pol m n props = Except.error e) ∧
    (props.objects = [] → ∃ e, StokesIntegrator.construct pol m n props = Except.error e) ∧
    (2 ≤ props.objects.length →
      ∃ e, StokesIntegrator.construct pol m n props = Except.error e) ∧
    ((∃ kv ∈ props.objects, kv.2.dynamic_cast = none) →
      ∃ e, StokesIntegrator.construct pol m n props = Except.error e) := by
  have hmain := construct_eq_ok_iff pol m n props
  have herr : (∀ self, StokesIntegrator.construct pol m n props ≠ Except.ok self) →
      ∃ e, StokesIntegrator.construct pol m n props = Except.error e := by
    intro h
    cases hc : StokesIntegrator.construct pol m n props with
    | error e => exact ⟨e, rfl⟩
    | ok self => exact absurd hc (h self)
  refine ⟨hmain, ?_, ?_, ?_, ?_⟩
  · intro hpol
    refine herr fun self hok => ?_
    have := ((hmain self).1 hok).1
    rw [hpol] at this
    cases this
  · intro hobjs
    refine herr fun self hok => ?_
    obtain ⟨-, name, h⟩ := (hmain self).1 hok
    rw [hobjs] at h
    cases h
  · intro hlen
    refine herr fun self hok => ?_
    obtain ⟨-, name, h⟩ := (hmain self).1 hok
    rw [h] at hlen
    simp at hlen
  · rintro ⟨kv, hmem, hcast⟩
    refine herr fun self hok => ?_
    obtain ⟨-, name, h⟩ := (hmain self).1 hok
    rw [h] at hmem
    simp only [List.mem_singleton] at hmem
    rw [hmem] at hcast
    cases hcast

/-- C8 at a concrete configuration: in the polarized RGB variant the list of the one
child `scenarioIntegrator` constructs the decorator bound to it. -/
theorem construct_succeeds_iff_single_integrator_witness :
    StokesIntegrator.construct true .rgb 0
        ({ objects := [("integrator", Object.samplingIntegrator scenarioIntegrator)] } :
          Properties _ Unit)
      = Except.ok (StokesIntegrator.mk scenarioIntegrator) :=
  ((construct_succeeds_iff_single_integrator true .rgb 0
      ({ objects := [("integrator", Object.samplingIntegrator scenarioIntegrator)] } :
        Properties _ Unit)).1 (StokesIntegrator.mk scenarioIntegrator)).2
    ⟨rfl, "integrator", rfl⟩

end Mitsuba

/-! ## Conversion of the Stokes components -/

namespace Mitsuba

/-- C9.  In a polarized RGB variant, for each Stokes component `i` with value
`(r, g, b)` in coefficient 0 of the radiance the wrapped integrator returned, the three
stores `sample` makes for component `i` carry `r`, `g`, `b` in that order, to the
slots `aovs + 3 * i`, `+ 1`, `+ 2`, and those cells hold `r`, `g`, `b` after the call. -/
theorem sample_rgb_writes_components_unchanged {F Mask Scene Sampler G W σ : Type}
    [Zero F] [Mul F] [Inv F] [DecidableEq F] {n : Nat}
    (self : StokesIntegrator F Mask Scene Sampler (RayDifferential3f G W) σ true .rgb n)
    (ops : SpectralOps F Mask W n) (scene : Scene) (sampler : Sampler)
    (ray : RayDifferential3f G W) (aovs : Nat) (active : Mask) (st : RenderState F σ) :
    ∃ stores : List (Nat × F),
      (self.sample ops scene sampler ray aovs active st).2.buffer.writes
        = (self.m_integrator.sample scene sampler ray (aovs + 12) active st).2.buffer.writes
          ++ stores ∧
      stores.length = 12 ∧
      ∀ i : Fin 4,
        (stores.drop (3 * i.val)).take 3
          = [(aovs + 3 * i.val, Color3.r (MuellerMatrix.coeff
                (self.m_integrator.sample scene sampler ray (aovs + 12) active st).1.1 0 i)),
             (aovs + 3 * i.val + 1, Color3.g (MuellerMatrix.coeff
                (self.m_integrator.sample scene sampler ray (aovs + 12) active st).1.1 0 i)),
             (aovs + 3 * i.val + 2, Color3.b (MuellerMatrix.coeff
                (self.m_integrator.sample scene sampler ray (aovs + 12) active st).1.1 0 i))] ∧
        (self.sample ops scene sampler ray aovs active st).2.buffer.cells (aovs + 3 * i.val)
          = Color3.r (MuellerMatrix.coeff
              (self.m_integrator.sample scene sampler ray (aovs + 12) active st).1.1 0 i) ∧
        (self.sample ops scene sampler ray aovs active st).2.buffer.cells
            (aovs + 3 * i.val + 1)
          = Color3.g (MuellerMatrix.coeff
              (self.m_integrator.sample scene sampler ray (aovs + 12) active st).1.1 0 i) ∧
        (self.sample ops scene sampler ray aovs active st).2.buffer.cells
            (aovs + 3 * i.val + 2)
          = Color3.b (MuellerMatrix.coeff
              (self.m_integrator.sample scene sampler ray (aovs + 12) active st).1.1 0 i) := by
  refine ⟨_, sample_writes self ops scene sampler ray aovs active st, ?_, ?_⟩
  · simp [stokesValues_length]
  · intro i
    have h0 := sample_cells_inside self ops scene sampler ray aovs active st i 0
    have h1 := sample_cells_inside self ops scene sampler ray aovs active st i 1
    have h2 := sample_cells_inside self ops scene sampler ray aovs active st i 2
    refine ⟨?_, ?_, ?_, ?_⟩
    · fin_cases i <;> simp [stokesValues, finRange_four, stokesToRgb, Nat.add_assoc]
    · simpa using h0
    · simpa [Nat.add_assoc] using h1
    · simpa [Nat.add_assoc] using h2

/-- C10.  In a polarized monochromatic variant, for each Stokes component `i` with
value `v` in coefficient 0 of the radiance the wrapped integrator returned, the three
stores `sample` makes for component `i` all carry `v`, to the slots `aovs + 3 * i`,
`+ 1`, `+ 2`, and those cells hold `v` after the call. -/
theorem sample_monochromatic_writes_value_thrice {F Mask Scene Sampler G W σ : Type}
    [Zero F] [Mul F] [Inv F] [DecidableEq F] {n : Nat}
    (self : StokesIntegrator F Mask Scene Sampler (RayDifferential3f G W) σ true
      .monochromatic n)
    (ops : SpectralOps F Mask W n) (scene : Scene) (sampler : Sampler)
    (ray : RayDifferential3f G W) (aovs : Nat) (active : Mask) (st : RenderState F σ) :
    ∃ stores : List (Nat × F),
      (self.sample ops scene sampler ray aovs active st).2.buffer.writes
        = (self.m_integrator.sample scene sampler ray (aovs + 12) active st).2.buffer.writes
          ++ stores ∧
      stores.length = 12 ∧
      ∀ i : Fin 4,
        (stores.drop (3 * i.val)).take 3
          = [(aovs + 3 * i.val, Color1.x (MuellerMatrix.coeff
                (self.m_integrator.sample scene sampler ray (aovs + 12) active st).1.1 0 i)),
             (aovs + 3 * i.val + 1, Color1.x (MuellerMatrix.coeff
                (self.m_integrator.sample scene sampler ray (aovs + 12) active st).1.1 0 i)),
             (aovs + 3 * i.val + 2, Color1.x (MuellerMatrix.coeff
                (self.m_integrator.sample scene sampler ray (aovs + 12) active st).1.1 0 i))] ∧
        ∀ j : Fin 3,
          (self.sample ops scene sampler ray aovs active st).2.buffer.cells
              (aovs + (3 * i.val + j.val))
            = Color1.x (MuellerMatrix.coeff
                (self.m_integrator.sample scene sampler ray (aovs + 12) active st).1.1 0 i) := by
  refine ⟨_, sample_writes self ops scene sampler ray aovs active st, ?_, ?_⟩
  · simp [stokesValues_length]
  · intro i
    refine ⟨?_, ?_⟩
    · fin_cases i <;>
        simp [stokesValues, finRange_four, stokesToRgb, Color3.broadcast, Nat.add_assoc]
    · intro j
      rw [sample_cells_inside]
      fin_cases j <;> rfl

end Mitsuba

namespace Mitsuba

end Mitsuba


/-! ## Totality and determinism of `aov_names` -/

namespace Mitsuba

/-- Before the insertion of iteration `(i, j)` the vector holds the first `3 * i + j`
Stokes names followed by the names of the wrapped integrator. -/
theorem insertStokesNamesBefore_eq (names : List String) (i : Fin 4) (j : Fin 3) :
    insertStokesNamesBefore names i.val j.val
      = some (["S0.R", "S0.G", "S0.B", "S1.R", "S1.G", "S1.B",
               "S2.R", "S2.G", "S2.B", "S3.R", "S3.G", "S3.B"].take (3 * i.val + j.val)
              ++ names) := by
  have n00 : stokesName 0 0 = "S0.R" := by decide
  have n01 : stokesName 0 1 = "S0.G" := by decide
  have n02 : stokesName 0 2 = "S0.B" := by decide
  have n10 : stokesName 1 0 = "S1.R" := by decide
  have n11 : stokesName 1 1 = "S1.G" := by decide
  have n12 : stokesName 1 2 = "S1.B" := by decide
  have n20 : stokesName 2 0 = "S2.R" := by decide
  have n21 : stokesName 2 1 = "S2.G" := by decide
  have n22 : stokesName 2 2 = "S2.B" := by decide
  have n30 : stokesName 3 0 = "S3.R" := by decide
  have n31 : stokesName 3 1 = "S3.G" := by decide
  have n32 : stokesName 3 2 = "S3.B" := by decide
  fin_cases i <;> fin_cases j <;>
    simp [insertStokesNamesBefore, List.range, List.range.loop, vectorInsert,
      List.insertIdx_succ_cons, n00, n01, n02, n10, n11, n12, n20, n21, n22, n30, n31, n32]

/-- C14.  For every name list of the wrapped integrator, the empty one and those
shorter than 12 included: each of the twelve insertions of `aov_names`, in loop order
(`i` in 0..3, `j` in 0..2), finds a vector `cur` with `3 * i + j ≤ cur.length`, so the
insertion is in range and succeeds; and `aov_names` returns a list. -/
theorem aov_names_insertions_in_range {F Mask Scene Sampler Ray σ : Type}
    {pol : Bool} {m : ColorMode} {n : Nat}
    (self : StokesIntegrator F Mask Scene Sampler Ray σ pol m n) :
    (∀ (i : Fin 4) (j : Fin 3),
      ∃ cur next : List String,
        insertStokesNamesBefore self.m_integrator.aov_names i.val j.val = some cur ∧
        cur.length = 3 * i.val + j.val + self.m_integrator.aov_names.length ∧
        3 * i.val + j.val ≤ cur.length ∧
        vectorInsert cur (3 * i.val + j.val) (stokesName i.val j.val) = some next) ∧
    insertStokesNamesBefore self.m_integrator.aov_names 4 0 = self.aov_names ∧
    ∃ result : List String, self.aov_names = some result := by
  refine ⟨fun i j => ?_, ?_, _, insertStokesNames_eq self.m_integrator.aov_names⟩
  · have hlen : (["S0.R", "S0.G", "S0.B", "S1.R", "S1.G", "S1.B",
          "S2.R", "S2.G", "S2.B", "S3.R", "S3.G", "S3.B"].take (3 * i.val + j.val)
          ++ self.m_integrator.aov_names).length
        = 3 * i.val + j.val + self.m_integrator.aov_names.length := by
      have : 3 * i.val + j.val ≤ 12 := by omega
      simp [List.length_take, this]
    refine ⟨_,
      List.insertIdx (3 * i.val + j.val) (stokesName i.val j.val)
        (["S0.R", "S0.G", "S0.B", "S1.R", "S1.G", "S1.B",
          "S2.R", "S2.G", "S2.B", "S3.R", "S3.G", "S3.B"].take (3 * i.val + j.val)
          ++ self.m_integrator.aov_names),
      insertStokesNamesBefore_eq _ i j, hlen, by omega, ?_⟩
    simp only [vectorInsert]
    rw [if_pos (by omega)]
  · simp [insertStokesNamesBefore, StokesIntegrator.aov_names, insertStokesNames]

end Mitsuba

namespace Mitsuba

/-- C12.  The list `aov_names` returns is a function of the name list `L` of the
wrapped integrator alone, namely `[S0.R, ..., S3.B] ++ L`: it is that list in every
variant and in every render state, the call leaves the state as it is, the list is the
same after an earlier call of `sample` as before it and the same in any two states;
hence two decorators, of any two variants and in any two states, whose wrapped
integrators have the same name list return the same list, and so do two objects the
constructor yields on the same configuration. -/
theorem aov_names_function_of_wrapped_names
    {F₁ Mask₁ Scene₁ Sampler₁ G₁ W₁ σ₁ F₂ Mask₂ Scene₂ Sampler₂ Ray₂ σ₂ O : Type}
    [Zero F₁] [Mul F₁] [Inv F₁] [DecidableEq F₁]
    {pol₁ pol₂ : Bool} {m₁ m₂ : ColorMode} {n₁ n₂ : Nat}
    (self₁ : StokesIntegrator F₁ Mask₁ Scene₁ Sampler₁ (RayDifferential3f G₁ W₁) σ₁
      pol₁ m₁ n₁)
    (self₂ : StokesIntegrator F₂ Mask₂ Scene₂ Sampler₂ Ray₂ σ₂ pol₂ m₂ n₂)
    (props : Properties
      (SamplingIntegrator F₁ Mask₁ Scene₁ Sampler₁ (RayDifferential3f G₁ W₁) σ₁ pol₁ m₁ n₁) O)
    (ops : SpectralOps F₁ Mask₁ W₁ n₁) (scene : Scene₁) (sampler : Sampler₁)
    (ray : RayDifferential3f G₁ W₁) (aovs : Nat) (active : Mask₁)
    (st₁ st₁' : RenderState F₁ σ₁) (st₂ : RenderState F₂ σ₂) :
    (self₁.aov_names_in st₁).1
      = some (["S0.R", "S0.G", "S0.B", "S1.R", "S1.G", "S1.B",
               "S2.R", "S2.G", "S2.B", "S3.R", "S3.G", "S3.B"]
              ++ self₁.m_integrator.aov_names) ∧
    (self₁.aov_names_in st₁).2 = st₁ ∧
    (self₁.aov_names_in (self₁.sample ops scene sampler ray aovs active st₁).2).1
      = (self₁.aov_names_in st₁).1 ∧
    (self₁.aov_names_in st₁').1 = (self₁.aov_names_in st₁).1 ∧
    (self₁.m_integrator.aov_names = self₂.m_integrator.aov_names →
      (self₁.aov_names_in st₁).1 = (self₂.aov_names_in st₂).1) ∧
    (∀ a b : StokesIntegrator F₁ Mask₁ Scene₁ Sampler₁ (RayDifferential3f G₁ W₁) σ₁
        pol₁ m₁ n₁,
      StokesIntegrator.construct pol₁ m₁ n₁ props = Except.ok a →
      StokesIntegrator.construct pol₁ m₁ n₁ props = Except.ok b →
      (a.aov_names_in st₁).1 = (b.aov_names_in st₁').1) := by
  have hval : ∀ {F Mask Scene Sampler Ray σ : Type} {pol : Bool} {m : ColorMode} {n : Nat}
      (self : StokesIntegrator F Mask Scene Sampler Ray σ pol m n) (st : RenderState F σ),
      (self.aov_names_in st).1
        = some (["S0.R", "S0.G", "S0.B", "S1.R", "S1.G", "S1.B",
                 "S2.R", "S2.G", "S2.B", "S3.R", "S3.G", "S3.B"]
                ++ self.m_integrator.aov_names) :=
    fun self _ => insertStokesNames_eq self.m_integrator.aov_names
  refine ⟨hval self₁ st₁, rfl, ?_, ?_, ?_, ?_⟩
  · rw [hval, hval]
  · rw [hval, hval]
  · intro h
    rw [hval, hval, h]
  · intro a b ha hb
    rw [ha] at hb
    rw [Except.ok.inj hb, hval, hval]

/-- C12 at concrete decorators: around `scenarioIntegrator` (RGB variant), in the state
a call of `sample` has left, and around `scenarioMonoIntegrator` (monochromatic
variant), in a state never sampled in, `aov_names` returns the same list, the name
lists of the two wrapped integrators being equal; and the object the constructor
yields on `scenarioProps` returns the same list before and after that call. -/
theorem aov_names_function_of_wrapped_names_witness :
    ((StokesIntegrator.mk scenarioIntegrator).aov_names_in scenarioResult).1
        = ((StokesIntegrator.mk scenarioMonoIntegrator).aov_names_in scenarioState).1 ∧
    ((StokesIntegrator.mk scenarioIntegrator).aov_names_in scenarioResult).1
        = ((StokesIntegrator.mk scenarioIntegrator).aov_names_in scenarioState).1 :=
  ⟨(aov_names_function_of_wrapped_names (StokesIntegrator.mk scenarioIntegrator)
      (StokesIntegrator.mk scenarioMonoIntegrator) scenarioProps scenarioOps () ()
      { geometry := (), wavelengths := () } 0 true scenarioResult scenarioState
      scenarioState).2.2.2.2.1 rfl,
   (aov_names_function_of_wrapped_names (StokesIntegrator.mk scenarioIntegrator)
      (StokesIntegrator.mk scenarioMonoIntegrator) scenarioProps scenarioOps () ()
      { geometry := (), wavelengths := () } 0 true scenarioResult scenarioState
      scenarioState).2.2.2.2.2
      (StokesIntegrator.mk scenarioIntegrator) (StokesIntegrator.mk scenarioIntegrator)
      rfl rfl⟩

end Mitsuba

/-! ## Frame of `sample` -/

namespace Mitsuba

/-- The constructor yields objects of polarized variants only. -/
theorem construct_ok_polarized {F Mask Scene Sampler Ray σ O : Type}
    {pol : Bool} {m : ColorMode} {n : Nat}
    {props : Properties (SamplingIntegrator F Mask Scene Sampler Ray σ pol m n) O}
    {self : StokesIntegrator F Mask Scene Sampler Ray σ pol m n}
    (hc : StokesIntegrator.construct pol m n props = Except.ok self) : pol = true :=
  ((construct_eq_ok_iff pol m n props self).1 hc).1

/-- C13.  For every decorator the constructor yields and every call of its `sample`
with cursor `aovs`: the stores of `sample` itself come after those of the wrapped call
in the journal and go to exactly the slots `aovs, ..., aovs + 11`; every cell outside
`[aovs, aovs + 12)`, in particular every slot at index 12 or above, holds what the
wrapped call left there.  If the wrapped call stores only at slots at or after the
cursor `aovs + 12` it is given, then no store of the decorator goes to a slot the
wrapped call stored to, every such slot keeps the wrapped value, and the twelve Stokes
slots hold the Stokes values. -/
theorem sample_frame {F Mask Scene Sampler G W σ O : Type}
    [Zero F] [Mul F] [Inv F] [DecidableEq F] {pol : Bool} {m : ColorMode} {n : Nat}
    (props : Properties
      (SamplingIntegrator F Mask Scene Sampler (RayDifferential3f G W) σ pol m n) O)
    (self : StokesIntegrator F Mask Scene Sampler (RayDifferential3f G W) σ pol m n)
    (hc : StokesIntegrator.construct pol m n props = Except.ok self)
    (ops : SpectralOps F Mask W n) (scene : Scene) (sampler : Sampler)
    (ray : RayDifferential3f G W) (aovs : Nat) (active : Mask) (st : RenderState F σ) :
    ∃ stores : List (Nat × F),
      (self.sample ops scene sampler ray aovs active st).2.buffer.writes
        = (self.m_integrator.sample scene sampler ray (aovs + 12) active st).2.buffer.writes
          ++ stores ∧
      stores.map Prod.fst = (List.range 12).map (fun p => aovs + p) ∧
      (∀ x : Nat, (x < aovs ∨ aovs + 12 ≤ x) →
        (self.sample ops scene sampler ray aovs active st).2.buffer.cells x
          = (self.m_integrator.sample scene sampler ray (aovs + 12) active
              st).2.buffer.cells x) ∧
      (∀ k : Nat,
        (self.sample ops scene sampler ray aovs active st).2.buffer.cells (aovs + 12 + k)
          = (self.m_integrator.sample scene sampler ray (aovs + 12) active
              st).2.buffer.cells (aovs + 12 + k)) ∧
      ∀ ws : List (Nat × F),
        (self.m_integrator.sample scene sampler ray (aovs + 12) active st).2.buffer.writes
          = st.buffer.writes ++ ws →
        (∀ p ∈ ws, aovs + 12 ≤ p.1) →
        (self.sample ops scene sampler ray aovs active st).2.buffer.writes
            = st.buffer.writes ++ ws ++ stores ∧
          (∀ p ∈ ws, ∀ q ∈ stores, p.1 ≠ q.1) ∧
          (∀ p ∈ ws,
            (self.sample ops scene sampler ray aovs active st).2.buffer.cells p.1
              = (self.m_integrator.sample scene sampler ray (aovs + 12) active
                  st).2.buffer.cells p.1) ∧
          (self.sample ops scene sampler ray aovs active st).2.buffer.slots aovs 12
            = stores.map Prod.snd := by
  have hpol := construct_ok_polarized hc
  subst hpol
  have hframe : ∀ x : Nat, (x < aovs ∨ aovs + 12 ≤ x) →
      (self.sample ops scene sampler ray aovs active st).2.buffer.cells x
        = (self.m_integrator.sample scene sampler ray (aovs + 12) active
            st).2.buffer.cells x :=
    fun x hx => sample_cells_outside self ops scene sampler ray aovs active st x hx
  have hslots : List.map Prod.fst
      ((stokesValues fun i => stokesToRgb m n ops
          (MuellerMatrix.coeff
            (self.m_integrator.sample scene sampler ray (aovs + 12) active st).1.1 0 i)
          ray active).enumFrom aovs)
        = (List.range 12).map (fun p => aovs + p) := by
    simp [stokesValues, finRange_four, List.range, List.range.loop]
  refine ⟨_, sample_writes self ops scene sampler ray aovs active st, hslots, hframe,
    fun k => hframe _ (by omega), ?_⟩
  intro ws hws hoff
  refine ⟨?_, ?_, ?_, ?_⟩
  · rw [sample_writes, hws]
  · intro p hp q hq
    have hq1 : q.1 ∈ (List.range 12).map (fun p => aovs + p) := by
      rw [← hslots]
      exact List.mem_map_of_mem Prod.fst hq
    obtain ⟨k, hk, hqk⟩ := List.mem_map.1 hq1
    have hk12 : k < 12 := List.mem_range.1 hk
    have := hoff p hp
    omega
  · intro p hp
    exact hframe _ (Or.inr (hoff p hp))
  · rw [sample_buffer, List.enumFrom_map_snd]
    have h := foldl_storeInc_slots
      (stokesValues fun i => stokesToRgb m n ops
        (MuellerMatrix.coeff
          (self.m_integrator.sample scene sampler ray (aovs + 12) active st).1.1 0 i)
        ray active)
      (self.m_integrator.sample scene sampler ray (aovs + 12) active st).2.buffer aovs
    rwa [stokesValues_length] at h

/-- C13 at the run of `scenarioIntegrator`, which the constructor yields on
`scenarioProps` and whose wrapped call stores 7 and 8 at slots 12 and 13: the stores
of the decorator follow these two in the journal, none of them goes to slot 12 or 13,
and the two slots keep 7 and 8. -/
theorem sample_frame_witness :
    ∃ stores : List (Nat × ℚ),
      scenarioResult.buffer.writes = scenarioState.buffer.writes ++ [(12, 7), (13, 8)] ++ stores ∧
      (∀ p ∈ [((12 : Nat), (7 : ℚ)), (13, 8)], ∀ q ∈ stores, p.1 ≠ q.1) ∧
      scenarioResult.buffer.cells 12 = 7 ∧ scenarioResult.buffer.cells 13 = 8 := by
  obtain ⟨stores, -, -, -, -, h⟩ :=
    sample_frame scenarioProps (StokesIntegrator.mk scenarioIntegrator) rfl scenarioOps () ()
      { geometry := (), wavelengths := () } 0 true scenarioState
  have h2 := h [(12, 7), (13, 8)] rfl (by simp)
  exact ⟨stores, h2.1, h2.2.1, rfl, rfl⟩

end Mitsuba

/-! ## Traversal -/

namespace Mitsuba

/-- C15.  For every decorator the constructor yields, `traverse` adds exactly one
entry to what the callback has received, under the name "integrator", and its object
is the one child of the configuration the decorator was constructed from; the
decorator is the same after the call. -/
theorem traverse_reports_wrapped_integrator {F Mask Scene Sampler Ray σ O : Type}
    {pol : Bool} {m : ColorMode} {n : Nat}
    (props : Properties (SamplingIntegrator F Mask Scene Sampler Ray σ pol m n) O)
    (self : StokesIntegrator F Mask Scene Sampler Ray σ pol m n)
    (hc : StokesIntegrator.construct pol m n props = Except.ok self)
    (callback : TraversalCallback (SamplingIntegrator F Mask Scene Sampler Ray σ pol m n)) :
    (∃ (name : String) (w : SamplingIntegrator F Mask Scene Sampler Ray σ pol m n),
      props.objects = [(name, Object.samplingIntegrator w)] ∧
      (self.traverse callback).2.objects = callback.objects ++ [("integrator", w)]) ∧
    (self.traverse callback).1 = self := by
  obtain ⟨-, name, hobjs⟩ := (construct_eq_ok_iff pol m n props self).1 hc
  exact ⟨⟨name, self.m_integrator, hobjs, rfl⟩, rfl⟩

/-- C15 at the decorator the constructor yields on `scenarioProps`: a callback that
has received nothing holds, after `traverse`, the one entry "integrator" with
`scenarioIntegrator`. -/
theorem traverse_reports_wrapped_integrator_witness :
    (∃ (name : String)
        (w : SamplingIntegrator ℚ Bool Unit Unit (RayDifferential3f Unit Unit) Unit true
          .rgb 0),
      scenarioProps.objects = [(name, Object.samplingIntegrator w)] ∧
      ((StokesIntegrator.mk scenarioIntegrator).traverse { objects := [] }).2.objects
        = [] ++ [("integrator", w)]) ∧
    ((StokesIntegrator.mk scenarioIntegrator).traverse { objects := [] }).1
      = StokesIntegrator.mk scenarioIntegrator :=
  traverse_reports_wrapped_integrator scenarioProps (StokesIntegrator.mk scenarioIntegrator)
    rfl { objects := [] }

end Mitsuba

/-! ## Order of the constructor's checks -/

namespace Mitsuba

/-- C16.  The error of the constructor is that of its first failing check.  In a
non-polarized variant it is the polarized-mode error, whatever the children.  In a
polarized variant: on no children it is the missing-sub-integrator error; when the
first child is not a `SamplingIntegrator` it is the child-type error; when the first
child is one and the second is not, it is the child-type error too; when the first
two children are both `SamplingIntegrator`s it is the more-than-one error; whatever
follows these children.  The missing-sub-integrator error is raised only in a
polarized variant on an empty object list. -/
theorem construct_error_order {F Mask Scene Sampler Ray σ O : Type}
    (pol : Bool) (m : ColorMode) (n : Nat)
    (props : Properties (SamplingIntegrator F Mask Scene Sampler Ray σ pol m n) O) :
    (pol = false →
      StokesIntegrator.construct pol m n props
        = Except.error "This integrator should only be used in polarized mode!") ∧
    (pol = true → props.objects = [] →
      StokesIntegrator.construct pol m n props
        = Except.error "Must specify a sub-integrator!") ∧
    (pol = true → ∀ name o rest, props.objects = (name, Object.other o) :: rest →
      StokesIntegrator.construct pol m n props
        = Except.error "Child objects must be of type 'SamplingIntegrator'!") ∧
    (pol = true → ∀ name w name2 o rest,
      props.objects
        = (name, Object.samplingIntegrator w) :: (name2, Object.other o) :: rest →
      StokesIntegrator.construct pol m n props
        = Except.error "Child objects must be of type 'SamplingIntegrator'!") ∧
    (pol = true → ∀ name w name2 w2 rest,
      props.objects
        = (name, Object.samplingIntegrator w) :: (name2, Object.samplingIntegrator w2)
            :: rest →
      StokesIntegrator.construct pol m n props
        = Except.error "More than one sub-integrator specified!") ∧
    (StokesIntegrator.construct pol m n props = Except.error "Must specify a sub-integrator!"
      ↔ pol = true ∧ props.objects = []) := by
  have hempty : pol = true → props.objects = [] →
      StokesIntegrator.construct pol m n props
        = Except.error "Must specify a sub-integrator!" := by
    intro hpol hobjs
    subst hpol
    simp [StokesIntegrator.construct, hobjs, List.foldlM, pure, Except.pure]
  have hother : pol = true → ∀ name o rest, props.objects = (name, Object.other o) :: rest →
      StokesIntegrator.construct pol m n props
        = Except.error "Child objects must be of type 'SamplingIntegrator'!" := by
    intro hpol name o rest hobjs
    subst hpol
    simp [StokesIntegrator.construct, hobjs, List.foldlM, ctorLoopBody, Object.dynamic_cast,
      bind, Except.bind]
  have hsecond : pol = true → ∀ name w name2 o rest,
      props.objects
        = (name, Object.samplingIntegrator w) :: (name2, Object.other o) :: rest →
      StokesIntegrator.construct pol m n props
        = Except.error "Child objects must be of type 'SamplingIntegrator'!" := by
    intro hpol name w name2 o rest hobjs
    subst hpol
    simp [StokesIntegrator.construct, hobjs, List.foldlM, ctorLoopBody, Object.dynamic_cast,
      bind, Except.bind]
  have hmore : pol = true → ∀ name w name2 w2 rest,
      props.objects
        = (name, Object.samplingIntegrator w) :: (name2, Object.samplingIntegrator w2)
            :: rest →
      StokesIntegrator.construct pol m n props
        = Except.error "More than one sub-integrator specified!" := by
    intro hpol name w name2 w2 rest hobjs
    subst hpol
    simp [StokesIntegrator.construct, hobjs, List.foldlM, ctorLoopBody, Object.dynamic_cast,
      bind, Except.bind]
  have hpolar : pol = false →
      StokesIntegrator.construct pol m n props
        = Except.error "This integrator should only be used in polarized mode!" := by
    intro hpol
    subst hpol
    rfl
  refine ⟨hpolar, hempty, hother, hsecond, hmore, ?_, fun h => hempty h.1 h.2⟩
  intro herr
  rcases Bool.eq_false_or_eq_true pol with hp | hp
  swap
  · rw [hpolar hp] at herr
    exact absurd (Except.error.inj herr) (by decide)
  · refine ⟨hp, ?_⟩
    cases hobjs : props.objects with
    | nil => rfl
    | cons kv rest =>
      obtain ⟨name, obj⟩ := kv
      cases obj with
      | other o =>
        rw [hother hp name o rest hobjs] at herr
        exact absurd (Except.error.inj herr) (by decide)
      | samplingIntegrator w =>
        cases rest with
        | nil =>
          have hok := (construct_eq_ok_iff pol m n props (StokesIntegrator.mk w)).2
            ⟨hp, name, hobjs⟩
          rw [hok] at herr
          cases herr
        | cons kv2 rest2 =>
          obtain ⟨name2, obj2⟩ := kv2
          cases obj2 with
          | other o =>
            rw [hsecond hp name w name2 o rest2 hobjs] at herr
            exact absurd (Except.error.inj herr) (by decide)
          | samplingIntegrator w2 =>
            rw [hmore hp name w name2 w2 rest2 hobjs] at herr
            exact absurd (Except.error.inj herr) (by decide)

/-- C16 at the configuration `[valid, invalid]` of a polarized RGB variant: the
constructor raises the child-type error, not the more-than-one error. -/
theorem construct_error_order_witness :
    StokesIntegrator.construct true .rgb 0
        ({ objects := [("first", Object.samplingIntegrator scenarioIntegrator),
                       ("second", Object.other ())] } : Properties _ Unit)
      = Except.error "Child objects must be of type 'SamplingIntegrator'!" :=
  (construct_error_order true .rgb 0
      ({ objects := [("first", Object.samplingIntegrator scenarioIntegrator),
                     ("second", Object.other ())] } : Properties _ Unit)).2.2.2.1
    rfl "first" scenarioIntegrator "second" () [] rfl

end Mitsuba
